import Mathlib

/-
  Verification of the Bayesian optimization control loop
  (robo/solver/bayesian_optimization.py).

  The solver is shallowly embedded: the mutable object state becomes an
  explicit `BOState`, wall-clock measurements and random draws become an
  oracle `Env`, calls to the external collaborators (model, acquisition
  function, maximizer, recommendation strategy, checkpoint sink, task)
  are recorded in an event trace, and the `try/except` around model
  training becomes `Except`.  Objective values and durations are carried
  as integers: none of the loop's control decisions perform arithmetic on
  them beyond ordering comparisons.
-/

namespace RoBO

/-- The external task: per-dimension bounds, dimensionality, and a
synchronous objective evaluation returning one scalar per input row. -/
structure Task where
  n_dims : Nat
  X_lower : List Int
  X_upper : List Int
  evaluate : List Int → Int

/-- The external surrogate model, as the loop sees it: a train call that
either succeeds or raises (`trainOk` says which, per data set), whether
the model is a `GPyModel` (the loop checks this with `isinstance` before
saving hyperparameters), and its hyperparameter vector `m.param_array`. -/
structure ModelSpec where
  trainOk : List (List Int) → List (List Int) → Bool
  isGPy : Bool
  param_array : List Int

/-- Which recommendation strategy is configured: `None`, the function
`optimize_posterior_mean_and_std` (the loop compares the configured
strategy against this function by identity), or any other strategy. -/
inductive RecStrategy where
  | noStrategy : RecStrategy
  | optimizePosteriorMeanAndStd : RecStrategy
  | otherStrategy : RecStrategy
deriving Repr, DecidableEq

/-- Loop configuration fixed at construction time. `save_dir` records
whether a save directory was supplied (`save_dir is not None`). -/
structure Config where
  task : Task
  model : ModelSpec
  recommendation_strategy : RecStrategy
  acquisition_func : List Int → Int
  save_dir : Bool
  num_save : Nat
  train_intervall : Nat
  n_restarts : Nat

/-- Oracle for all nondeterminism the loop consumes: `randInit i` is the
i-th uniform draw of `np.random.uniform(X_lower, X_upper, n_dims)` made
during the initial design, `durInit i` the measured (overhead, eval)
durations of initial point i, `randRec it i` the i-th uniform restart
seed drawn at loop iteration `it`, `maximize it` the maximizer's proposed
point at iteration `it`, `recommendResult it` the (incumbent, value) pair
a configured recommendation strategy returns at iteration `it`, and
`durLoop it` the measured (overhead, eval) durations of iteration `it`. -/
structure Env where
  randInit : Nat → List Int
  durInit : Nat → Int × Int
  randRec : Nat → Nat → List Int
  maximize : Nat → List Int
  recommendResult : Nat → List Int × List Int
  durLoop : Nat → Int × Int

/-- The mutable solver state.  `X`/`Y` are `Option` because the
constructor sets them to `None`; `incumbent`/`incumbent_value` are
`Option` because `incumbent` is constructed as `None` and
`incumbent_value` is not assigned at all until the loop (reading it
before then raises `AttributeError`, modelled as the `none` case). -/
structure BOState where
  X : Option (List (List Int))
  Y : Option (List (List Int))
  time_func_eval : List Int
  time_optimization_overhead : List Int
  model_untrained : Bool
  incumbent : Option (List Int)
  incumbent_value : Option (List Int)
deriving Repr, DecidableEq

/-- How a recommendation strategy receives its `startpoints` argument:
the multi-restart branch passes a list of points, the generic branch
passes one bare point. -/
inductive StartArg where
  | single : List Int → StartArg
  | multiple : List (List Int) → StartArg
deriving Repr, DecidableEq

/-- One observable call to an external collaborator, tagged with the loop
iteration that made it (0 = the pre-loop setup phase). -/
inductive Event where
  | initPointEval : Nat → List Int → Event
  | trainCall : Nat → List (List Int) → List (List Int) → Event
  | acqUpdate : Nat → Event
  | maximizeCall : Nat → Event
  | recommendCall : Nat → StartArg → Option Bool → Event
  | evalCall : Nat → List Int → Event
  | saveCall : Nat → Option (List Int) → Option Int → Event
deriving Repr, DecidableEq

/-- The exceptions the embedded paths can raise: a model-training
failure propagating out of `model.train`, and the `AttributeError` from
touching a missing attribute (`incumbent_value`) or `None.shape`. -/
inductive BOError where
  | trainError : BOError
  | attributeError : BOError
deriving Repr, DecidableEq

/-- First-occurrence index of the minimum, as `np.argmin` computes it on
a flattened array: ties are broken towards the smaller index. -/
def argmin : List Int → Nat
  | [] => 0
  | y :: ys =>
      let j := argmin ys
      if ys.getD j y < y then j + 1 else 0

/-- The state `BayesianOptimization.__init__` leaves behind: arrays
`None`, `model_untrained = True`, `incumbent = None`, and
`incumbent_value` not assigned. -/
def initState : BOState :=
  { X := none, Y := none, time_func_eval := [], time_optimization_overhead := [],
    model_untrained := true, incumbent := none, incumbent_value := none }

/-- The `initialize(self, n_init_points=3)` method (the Lean name
differs because of lexical constraints): build fresh arrays of
`n_init_points` uniformly drawn inputs, their evaluations (stored as
1-element rows, matching the `(n, 1)` value array), and the two measured
duration arrays.  The source fills preallocated zero arrays index by
index; the result is the same as mapping over `range n_init_points`. -/
def initialPhase (cfg : Config) (env : Env) (s : BOState) (n_init_points : Nat) :
    BOState × List Event :=
  let idxs := List.range n_init_points
  ({ s with
      time_func_eval := idxs.map fun i => (env.durInit i).2
      time_optimization_overhead := idxs.map fun i => (env.durInit i).1
      X := some (idxs.map fun i => env.randInit i)
      Y := some (idxs.map fun i => [cfg.task.evaluate (env.randInit i)]) },
   idxs.map fun i => Event.initPointEval i (env.randInit i))

/-- `choose_next(X, Y, do_optimize)`: with observations supplied, train
the model when `do_optimize` (a training failure is logged and re-raised
unchanged), set `model_untrained = False`, rebind the acquisition
function and run the maximizer; with either argument `None`, fall back to
re-running the initial design and return the whole initial batch.  `it`
is the iteration index used only to tag trace events and to index the
oracle. -/
def choose_next (cfg : Config) (env : Env) (it : Nat) (s : BOState)
    (X : Option (List (List Int))) (Y : Option (List (List Int)))
    (do_optimize : Bool) :
    Except BOError (List (List Int) × BOState × List Event) :=
  match X, Y with
  | some Xv, some Yv =>
      if do_optimize then
        if cfg.model.trainOk Xv Yv then
          Except.ok ([env.maximize it], { s with model_untrained := false },
            [Event.trainCall it Xv Yv, Event.acqUpdate it, Event.maximizeCall it])
        else
          Except.error BOError.trainError
      else
        Except.ok ([env.maximize it], { s with model_untrained := false },
          [Event.acqUpdate it, Event.maximizeCall it])
  | _, _ =>
      let r := initialPhase cfg env s 3
      Except.ok ((r.1.X.getD []), r.1, r.2)

/-- The per-iteration incumbent recomputation (lines 131-148 of `run`):
dispatch on the configured strategy.  With no strategy, take the stable
argmin of the flattened value array; with `optimize_posterior_mean_and_std`
(identity comparison), call it with `n_restarts` uniform seeds plus the
best observed point and `with_gradients=True`; with any other strategy,
call it with the single best observed point and no gradient flag.  The
loop only reaches this with `X`/`Y` set, so the `getD []` defaults for a
`None` observation set are never exercised on any reachable path. -/
def recomputeIncumbent (cfg : Config) (env : Env) (it : Nat) (s : BOState) :
    BOState × List Event :=
  let xs := s.X.getD []
  let ys := s.Y.getD []
  match cfg.recommendation_strategy with
  | RecStrategy.noStrategy =>
      let b := argmin ys.flatten
      ({ s with incumbent := some (xs.getD b []),
                incumbent_value := some (ys.getD b []) }, [])
  | RecStrategy.optimizePosteriorMeanAndStd =>
      let startpoints :=
        ((List.range cfg.n_restarts).map fun i => env.randRec it i) ++
          [xs.getD (argmin ys.flatten) []]
      ({ s with incumbent := some (env.recommendResult it).1,
                incumbent_value := some (env.recommendResult it).2 },
       [Event.recommendCall it (StartArg.multiple startpoints) (some true)])
  | RecStrategy.otherStrategy =>
      let startpoint := xs.getD (argmin ys.flatten) []
      ({ s with incumbent := some (env.recommendResult it).1,
                incumbent_value := some (env.recommendResult it).2 },
       [Event.recommendCall it (StartArg.single startpoint) none])

/-- One pass through the body of the main loop of `run` at iteration
`it`: decide retraining by `it % train_intervall == 0`, choose the next
point, recompute the incumbent, append the overhead duration, evaluate
the candidate, append the evaluation duration and the new observation
row, and checkpoint when `save_dir` is set and `it % num_save == 0`
(hyperparameters and the acquisition value of the new candidate only for
a `GPyModel`).  A training failure aborts the body with the state
unchanged, as in the source. -/
def loopIter (cfg : Config) (env : Env) (it : Nat) (s : BOState) :
    Except (BOError × BOState × List Event) (BOState × List Event) :=
  let do_optimize : Bool := decide (it % cfg.train_intervall = 0)
  match choose_next cfg env it s s.X s.Y do_optimize with
  | Except.error e => Except.error (e, s, [])
  | Except.ok (new_x, s1, ev1) =>
      let r2 := recomputeIncumbent cfg env it s1
      let s2 := r2.1
      let s3 := { s2 with time_optimization_overhead :=
                    s2.time_optimization_overhead ++ [(env.durLoop it).1] }
      let new_y := new_x.map fun row => [cfg.task.evaluate row]
      let s4 := { s3 with time_func_eval :=
                    s3.time_func_eval ++ [(env.durLoop it).2] }
      let s5 := { s4 with X := some (s4.X.getD [] ++ new_x),
                          Y := some (s4.Y.getD [] ++ new_y) }
      let evSave :=
        if cfg.save_dir ∧ it % cfg.num_save = 0 then
          if cfg.model.isGPy then
            [Event.saveCall it (some cfg.model.param_array)
              (some (cfg.acquisition_func (new_x.headD [])))]
          else
            [Event.saveCall it none none]
        else []
      Except.ok (s5,
        ev1 ++ r2.2 ++ [Event.evalCall it (new_x.headD [])] ++ evSave)

/-- Run the loop body over a list of iteration indices, accumulating the
trace; a failure carries the state and trace at the moment of abort. -/
def runLoop (cfg : Config) (env : Env) :
    List Nat → BOState → List Event →
    Except (BOError × BOState × List Event) (BOState × List Event)
  | [], s, tr => Except.ok (s, tr)
  | it :: rest, s, tr =>
      match loopIter cfg env it s with
      | Except.error (e, s', ev) => Except.error (e, s', tr ++ ev)
      | Except.ok (s', ev) => runLoop cfg env rest s' (tr ++ ev)

/-- The pre-loop part of `run` (lines 106-117): with no prior
observations, run the initial design with the default `n_init_points=3`,
seed the incumbent with the first initial point, and (when a save
directory is configured, since `0 % num_save == 0` always holds) save the
iteration-0 checkpoint with no hyperparameters and acquisition value 0;
otherwise adopt the supplied arrays verbatim and reset both timing
arrays to zeros of matching length.  Supplying only `Y` stores
`X = None` and then crashes on `None.shape` while building the zero
timing arrays. -/
def runSetup (cfg : Config) (env : Env)
    (Xarg : Option (List (List Int))) (Yarg : Option (List (List Int)))
    (s : BOState) :
    Except (BOError × BOState × List Event) (BOState × List Event) :=
  match Xarg, Yarg with
  | none, none =>
      let r := initialPhase cfg env s 3
      let s2 := { r.1 with incumbent := some ((r.1.X.getD []).getD 0 []),
                           incumbent_value := some ((r.1.Y.getD []).getD 0 []) }
      let evSave :=
        if cfg.save_dir ∧ 0 % cfg.num_save = 0 then
          [Event.saveCall 0 none (some 0)]
        else []
      Except.ok (s2, r.2 ++ evSave)
  | Xo, Yo =>
      let s1 := { s with X := Xo, Y := Yo }
      match Xo with
      | some Xs =>
          Except.ok ({ s1 with
              time_func_eval := List.replicate Xs.length 0,
              time_optimization_overhead := List.replicate Xs.length 0 }, [])
      | none => Except.error (BOError.attributeError, s1, [])

/-- What `run` hands back to the caller: either the final
`(incumbent, incumbent_value)` pair or the exception that aborted it;
both carry the final object state and the trace of collaborator calls. -/
inductive RunResult where
  | ok : Option (List Int) → List Int → BOState → List Event → RunResult
  | err : BOError → BOState → List Event → RunResult
deriving Repr, DecidableEq

/-- `run(num_iterations, X, Y)`: setup, then the loop over
`range(1, num_iterations)`, then return the incumbent — reading
`self.incumbent_value`, which raises `AttributeError` when it was never
assigned. -/
def run (cfg : Config) (env : Env) (num_iterations : Nat)
    (Xarg : Option (List (List Int))) (Yarg : Option (List (List Int))) :
    RunResult :=
  match runSetup cfg env Xarg Yarg initState with
  | Except.error (e, s, tr) => RunResult.err e s tr
  | Except.ok (s1, ev1) =>
      match runLoop cfg env (List.range' 1 (num_iterations - 1)) s1 ev1 with
      | Except.error (e, s, tr) => RunResult.err e s tr
      | Except.ok (s, tr) =>
          match s.incumbent_value with
          | none => RunResult.err BOError.attributeError s tr
          | some v => RunResult.ok s.incumbent v s tr

/-- Decidable form of the observation-set invariant: inputs, values and
both timing arrays exist and have equal lengths. -/
def lensEqB (s : BOState) : Bool :=
  s.X.isSome && s.Y.isSome &&
  ((s.X.getD []).length == (s.Y.getD []).length) &&
  (s.time_func_eval.length == (s.X.getD []).length) &&
  (s.time_optimization_overhead.length == (s.X.getD []).length)

/-- Number of observation rows currently stored. -/
def xlen (s : BOState) : Nat := (s.X.getD []).length

/-- A concrete one-dimensional task with bounds [0, 1] and a constant
objective, used to instantiate the theorems below on closed inputs. -/
def constTask : Task :=
  { n_dims := 1, X_lower := [0], X_upper := [1], evaluate := fun _ => 5 }

/-- A model whose training always succeeds, is not a `GPyModel`, and has
no hyperparameters. -/
def okModel : ModelSpec :=
  { trainOk := fun _ _ => true, isGPy := false, param_array := [] }

/-- A baseline configuration: no recommendation strategy, no save
directory, defaults `num_save = 1`, `train_intervall = 1`,
`n_restarts = 10`. -/
def baseCfg : Config :=
  { task := constTask, model := okModel,
    recommendation_strategy := RecStrategy.noStrategy,
    acquisition_func := fun _ => 0,
    save_dir := false, num_save := 1, train_intervall := 1, n_restarts := 10 }

/-- A baseline oracle: every uniform draw is `[0]`, every measured
duration is 0, the maximizer always proposes `[0]`, and a configured
strategy would return `([0], [5])`. -/
def baseEnv : Env :=
  { randInit := fun _ => [0], durInit := fun _ => (0, 0),
    randRec := fun _ _ => [0], maximize := fun _ => [0],
    recommendResult := fun _ => ([0], [5]), durLoop := fun _ => (0, 0) }

/-- Reading a list at an in-bounds index does not depend on the default
element. -/
theorem getD_congr {α : Type} (l : List α) (i : Nat) (a b : α)
    (h : i < l.length) : l.getD i a = l.getD i b := by
  induction l generalizing i with
  | nil => simp at h
  | cons x xs ih =>
    cases i with
    | zero => simp [List.getD_cons_zero]
    | succ i' =>
      simp only [List.getD_cons_succ]
      exact ih i' (by simpa using h)

/-- `argmin` returns an in-bounds index on nonempty lists. -/
theorem argmin_lt_length (l : List Int) (h : l ≠ []) : argmin l < l.length := by
  induction l with
  | nil => exact absurd rfl h
  | cons y ys ih =>
    simp only [argmin, List.length_cons]
    by_cases hc : ys.getD (argmin ys) y < y
    · rw [if_pos hc]
      have hys : ys ≠ [] := by
        intro he
        rw [he] at hc
        simp [List.getD] at hc
      have := ih hys
      omega
    · rw [if_neg hc]
      omega

/-- The value at the `argmin` index is a lower bound of the list. -/
theorem argmin_min (l : List Int) :
    ∀ i, i < l.length → l.getD (argmin l) 0 ≤ l.getD i 0 := by
  induction l with
  | nil => intro i hi; simp at hi
  | cons y ys ih =>
    intro i hi
    simp only [argmin]
    by_cases hc : ys.getD (argmin ys) y < y
    · rw [if_pos hc]
      have hys : ys ≠ [] := by
        intro he
        rw [he] at hc
        simp [List.getD] at hc
      have hlt := argmin_lt_length ys hys
      rw [List.getD_cons_succ]
      cases i with
      | zero =>
        rw [List.getD_cons_zero]
        have he := getD_congr ys (argmin ys) 0 y hlt
        rw [he]
        exact le_of_lt hc
      | succ i' =>
        rw [List.getD_cons_succ]
        exact ih i' (by simpa using hi)
    · rw [if_neg hc]
      rw [List.getD_cons_zero]
      cases i with
      | zero => rw [List.getD_cons_zero]
      | succ i' =>
        rw [List.getD_cons_succ]
        have hi' : i' < ys.length := by simpa using hi
        have hys : ys ≠ [] := by
          intro he
          rw [he] at hi'
          simp at hi'
        have hlt := argmin_lt_length ys hys
        have h1 : y ≤ ys.getD (argmin ys) y := le_of_not_lt hc
        have h2 : ys.getD (argmin ys) y = ys.getD (argmin ys) 0 :=
          getD_congr ys (argmin ys) y 0 hlt
        have h3 := ih i' hi'
        omega

/-- Strict first-occurrence property of `argmin`: every earlier entry is
strictly larger. -/
theorem argmin_first (l : List Int) :
    ∀ j, j < argmin l → l.getD (argmin l) 0 < l.getD j 0 := by
  induction l with
  | nil => intro j hj; simp [argmin] at hj
  | cons y ys ih =>
    intro j hj
    simp only [argmin] at hj ⊢
    by_cases hc : ys.getD (argmin ys) y < y
    · rw [if_pos hc] at hj ⊢
      have hys : ys ≠ [] := by
        intro he
        rw [he] at hc
        simp [List.getD] at hc
      have hlt := argmin_lt_length ys hys
      rw [List.getD_cons_succ]
      cases j with
      | zero =>
        rw [List.getD_cons_zero]
        have he := getD_congr ys (argmin ys) 0 y hlt
        rw [he]
        exact hc
      | succ j' =>
        rw [List.getD_cons_succ]
        exact ih j' (by omega)
    · rw [if_neg hc] at hj
      omega

/-- On a list of 1-element rows (the `(n, 1)` value array), flattening
preserves length and row `k` is the singleton of flat entry `k`. -/
theorem rows1_flatten (ys : List (List Int)) (h : ∀ r ∈ ys, r.length = 1) :
    ys.flatten.length = ys.length ∧
      ∀ k, k < ys.length → ys.getD k [] = [ys.flatten.getD k 0] := by
  induction ys with
  | nil => simp
  | cons r ys ih =>
    have hr : r.length = 1 := h r (by simp)
    obtain ⟨a, ha⟩ := List.length_eq_one.mp hr
    subst ha
    obtain ⟨ih1, ih2⟩ := ih (fun r hm => h r (by simp [hm]))
    refine ⟨by simp [ih1], ?_⟩
    intro k hk
    cases k with
    | zero => simp
    | succ k' =>
      simp only [List.flatten_cons, List.singleton_append,
        List.getD_cons_succ]
      exact ih2 k' (by simpa using hk)

/-- The incumbent recomputation only rewrites the two incumbent fields,
and always sets both. -/
theorem recompute_sets_incumbent (cfg : Config) (env : Env) (it : Nat)
    (s : BOState) :
    ∃ i v, (recomputeIncumbent cfg env it s).1 =
      { s with incumbent := some i, incumbent_value := some v } := by
  cases hst : cfg.recommendation_strategy <;>
    simp only [recomputeIncumbent, hst] <;> exact ⟨_, _, rfl⟩

/-- The incumbent recomputation emits at most one event, and that event
is a `recommendCall` tagged with the current iteration. -/
theorem recompute_trace (cfg : Config) (env : Env) (it : Nat) (s : BOState) :
    (recomputeIncumbent cfg env it s).2 = [] ∨
    ∃ a b, (recomputeIncumbent cfg env it s).2 =
      [Event.recommendCall it a b] := by
  cases hst : cfg.recommendation_strategy <;>
    simp only [recomputeIncumbent, hst]
  · exact Or.inl trivial
  · exact Or.inr ⟨_, _, rfl⟩
  · exact Or.inr ⟨_, _, rfl⟩

/-- One successful pass through the loop body: with observations set and
training succeeding whenever it is due, the body appends exactly one row
to each of the four arrays, clears the `model_untrained` flag, sets the
incumbent pair, and emits the expected sequence of collaborator calls. -/
theorem loopIter_ok (cfg : Config) (env : Env) (it : Nat) (s : BOState)
    (xs ys : List (List Int)) (hX : s.X = some xs) (hY : s.Y = some ys)
    (htr : it % cfg.train_intervall = 0 → cfg.model.trainOk xs ys = true) :
    ∃ i v,
      loopIter cfg env it s = Except.ok
        ({ s with
            X := some (xs ++ [env.maximize it]),
            Y := some (ys ++ [[cfg.task.evaluate (env.maximize it)]]),
            time_func_eval := s.time_func_eval ++ [(env.durLoop it).2],
            time_optimization_overhead :=
              s.time_optimization_overhead ++ [(env.durLoop it).1],
            model_untrained := false,
            incumbent := some i, incumbent_value := some v },
          (if it % cfg.train_intervall = 0 then
             [Event.trainCall it xs ys, Event.acqUpdate it,
              Event.maximizeCall it]
           else [Event.acqUpdate it, Event.maximizeCall it]) ++
          (recomputeIncumbent cfg env it
            { s with model_untrained := false }).2 ++
          [Event.evalCall it (env.maximize it)] ++
          (if cfg.save_dir ∧ it % cfg.num_save = 0 then
             (if cfg.model.isGPy then
                [Event.saveCall it (some cfg.model.param_array)
                  (some (cfg.acquisition_func (env.maximize it)))]
              else [Event.saveCall it none none])
           else [])) := by
  rcases s with ⟨sx, sy, tfe, too, mu, inc, incv⟩
  obtain rfl : sx = some xs := hX
  obtain rfl : sy = some ys := hY
  obtain ⟨i, v, hrec⟩ := recompute_sets_incumbent cfg env it
    ⟨some xs, some ys, tfe, too, false, inc, incv⟩
  refine ⟨i, v, ?_⟩
  by_cases hd : it % cfg.train_intervall = 0
  · have hdec : decide (it % cfg.train_intervall = 0) = true :=
      decide_eq_true hd
    simp only [loopIter, choose_next, hdec, htr hd, if_pos hd, if_true,
      hrec]
    rfl
  · have hdec : decide (it % cfg.train_intervall = 0) = false :=
      decide_eq_false hd
    simp only [loopIter, choose_next, hdec, if_neg hd,
      Bool.false_eq_true, if_false, hrec]
    rfl

/-- C2: with no recommendation strategy configured, the per-iteration
incumbent recomputation sets the incumbent value to the minimum of all
recorded objective values at that moment and the incumbent input to the
corresponding observed row, ties broken by first occurrence (the index
is a stable argmin: every strictly earlier row has a strictly larger
value). -/
theorem C2_default_incumbent (cfg : Config) (env : Env) (it : Nat)
    (s : BOState) (xs ys : List (List Int))
    (hstrat : cfg.recommendation_strategy = RecStrategy.noStrategy)
    (hX : s.X = some xs) (hY : s.Y = some ys)
    (hrows : ∀ r ∈ ys, r.length = 1) (hne : ys ≠ []) :
    ∃ b, b = argmin ys.flatten ∧ b < ys.length ∧
      (recomputeIncumbent cfg env it s).1.incumbent = some (xs.getD b []) ∧
      (recomputeIncumbent cfg env it s).1.incumbent_value =
        some [ys.flatten.getD b 0] ∧
      (∀ i, i < ys.flatten.length →
        ys.flatten.getD b 0 ≤ ys.flatten.getD i 0) ∧
      (∀ j, j < b → ys.flatten.getD b 0 < ys.flatten.getD j 0) := by
  obtain ⟨hlen, hrow⟩ := rows1_flatten ys hrows
  have hfne : ys.flatten ≠ [] := by
    intro he
    have : ys.flatten.length = 0 := by rw [he]; rfl
    rw [hlen] at this
    exact hne (List.length_eq_zero.mp this)
  have hb : argmin ys.flatten < ys.length := by
    have := argmin_lt_length ys.flatten hfne
    omega
  refine ⟨argmin ys.flatten, rfl, hb, ?_, ?_, ?_, ?_⟩
  · simp only [recomputeIncumbent, hstrat, hX, hY, Option.getD_some]
  · have hval : ys.getD (argmin ys.flatten) [] =
        [ys.flatten.getD (argmin ys.flatten) 0] := hrow _ hb
    simp only [recomputeIncumbent, hstrat, hX, hY, Option.getD_some]
    exact congrArg some hval
  · exact argmin_min ys.flatten
  · exact argmin_first ys.flatten

/-- Witness for C2 on a concrete observation set with a tie: values
5, 3, 3 give incumbent index 1. -/
theorem C2_default_incumbent_witness :
    (recomputeIncumbent baseCfg baseEnv 1
        { initState with X := some [[10], [11], [12]],
                         Y := some [[5], [3], [3]] }).1.incumbent_value =
      some [3] := by
  obtain ⟨b, hbdef, hblt, hinc, hval, hmin, hfirst⟩ :=
    C2_default_incumbent baseCfg baseEnv 1
      { initState with X := some [[10], [11], [12]], Y := some [[5], [3], [3]] }
      [[10], [11], [12]] [[5], [3], [3]] rfl rfl rfl
      (by intro r hr; fin_cases hr <;> rfl) (by simp)
  rw [hval]
  have : b = 1 := by rw [hbdef]; rfl
  rw [this]
  rfl

/-- C7: after the initial design with any `n_init_points ≥ 0`, the input
array has shape (n_init_points, n_dims), the value array has shape
(n_init_points, 1), both timing arrays have length n_init_points, and
with n_init_points = 0 all four arrays are well-formed and empty. -/
theorem C7_initial_shapes (cfg : Config) (env : Env) (s : BOState) (n : Nat)
    (hdim : ∀ i, (env.randInit i).length = cfg.task.n_dims) :
    ∃ xs ys, (initialPhase cfg env s n).1.X = some xs ∧
      (initialPhase cfg env s n).1.Y = some ys ∧
      xs.length = n ∧ (∀ r ∈ xs, r.length = cfg.task.n_dims) ∧
      ys.length = n ∧ (∀ r ∈ ys, r.length = 1) ∧
      (initialPhase cfg env s n).1.time_func_eval.length = n ∧
      (initialPhase cfg env s n).1.time_optimization_overhead.length = n ∧
      (n = 0 → xs = [] ∧ ys = [] ∧
        (initialPhase cfg env s n).1.time_func_eval = [] ∧
        (initialPhase cfg env s n).1.time_optimization_overhead = []) := by
  refine ⟨_, _, rfl, rfl, by simp [initialPhase], ?_, by simp [initialPhase],
    ?_, by simp [initialPhase], by simp [initialPhase], ?_⟩
  · intro r hr
    rw [List.mem_map] at hr
    obtain ⟨i, _, rfl⟩ := hr
    exact hdim i
  · intro r hr
    rw [List.mem_map] at hr
    obtain ⟨i, _, rfl⟩ := hr
    rfl
  · intro hn
    subst hn
    exact ⟨rfl, rfl, rfl, rfl⟩

/-- Witness for C7 at `n_init_points = 2` on the baseline task. -/
theorem C7_initial_shapes_witness :
    (initialPhase baseCfg baseEnv initState 2).1.time_func_eval.length = 2 ∧
    (initialPhase baseCfg baseEnv initState 2).1.X =
      some [[0], [0]] := by
  obtain ⟨xs, ys, h1, h2, h3, h4, h5, h6, h7, h8, h9⟩ :=
    C7_initial_shapes baseCfg baseEnv initState 2 (fun i => rfl)
  exact ⟨h7, rfl⟩

/-- Running the loop body over any iteration list, from a state with
equal-length arrays, succeeds as long as training succeeds below a row
bound `L` covering every reached state, appends exactly one row per
iteration to all four arrays, and (unless the list was empty) leaves the
incumbent value assigned. -/
theorem runLoop_grow (cfg : Config) (env : Env) (L : Nat)
    (htr : ∀ (a : List (List Int)) (b : List (List Int)),
      a.length < L → cfg.model.trainOk a b = true) :
    ∀ (its : List Nat) (s : BOState) (tr : List Event)
      (xs ys : List (List Int)),
    s.X = some xs → s.Y = some ys → xs.length = ys.length →
    s.time_func_eval.length = xs.length →
    s.time_optimization_overhead.length = xs.length →
    xs.length + its.length ≤ L →
    ∃ s' tr' xs' ys',
      runLoop cfg env its s tr = Except.ok (s', tr') ∧
      s'.X = some xs' ∧ s'.Y = some ys' ∧
      xs'.length = xs.length + its.length ∧ ys'.length = xs'.length ∧
      s'.time_func_eval.length = xs'.length ∧
      s'.time_optimization_overhead.length = xs'.length ∧
      (s'.incumbent_value.isSome = true ∨ (s' = s ∧ tr' = tr)) := by
  intro its
  induction its with
  | nil =>
    intro s tr xs ys hX hY hxy h1 h2 _
    exact ⟨s, tr, xs, ys, rfl, hX, hY, by simp, by omega, by omega, by omega,
      Or.inr ⟨rfl, rfl⟩⟩
  | cons it rest ih =>
    intro s tr xs ys hX hY hxy h1 h2 hb
    have hc : (it :: rest).length = rest.length + 1 := rfl
    have hlen : xs.length < L := by omega
    obtain ⟨i, v, hiter⟩ := loopIter_ok cfg env it s xs ys hX hY
      (fun _ => htr xs ys hlen)
    obtain ⟨s', tr', xs', ys', hrun, hX', hY', hl1, hl2, hl3, hl4, hincv⟩ :=
      ih { s with
            X := some (xs ++ [env.maximize it]),
            Y := some (ys ++ [[cfg.task.evaluate (env.maximize it)]]),
            time_func_eval := s.time_func_eval ++ [(env.durLoop it).2],
            time_optimization_overhead :=
              s.time_optimization_overhead ++ [(env.durLoop it).1],
            model_untrained := false,
            incumbent := some i, incumbent_value := some v }
        (tr ++
          ((if it % cfg.train_intervall = 0 then
              [Event.trainCall it xs ys, Event.acqUpdate it,
               Event.maximizeCall it]
            else [Event.acqUpdate it, Event.maximizeCall it]) ++
           (recomputeIncumbent cfg env it
             { s with model_untrained := false }).2 ++
           [Event.evalCall it (env.maximize it)] ++
           (if cfg.save_dir ∧ it % cfg.num_save = 0 then
              (if cfg.model.isGPy then
                 [Event.saveCall it (some cfg.model.param_array)
                   (some (cfg.acquisition_func (env.maximize it)))]
               else [Event.saveCall it none none])
            else [])))
        (xs ++ [env.maximize it])
        (ys ++ [[cfg.task.evaluate (env.maximize it)]])
        rfl rfl (by simp [hxy]) (by simp [h1]) (by simp [h2])
        (by simp only [List.length_append, List.length_cons,
              List.length_nil]
            omega)
    refine ⟨s', tr', xs', ys', ?_, hX', hY', ?_, hl2, hl3, hl4, ?_⟩
    · rw [runLoop, hiter]
      exact hrun
    · simp only [List.length_append, List.length_cons, List.length_nil]
        at hl1
      omega
    · rcases hincv with h | ⟨rfl, rfl⟩
      · exact Or.inl h
      · exact Or.inl rfl

/-- The fresh-start setup phase of `run`: the initial design with the
default 3 points, the incumbent seeded from the first initial point, and
the iteration-0 checkpoint exactly when a save directory is set. -/
theorem runSetup_fresh (cfg : Config) (env : Env) :
    runSetup cfg env none none initState = Except.ok
      ({ X := some ((List.range 3).map fun i => env.randInit i),
         Y := some ((List.range 3).map fun i =>
           [cfg.task.evaluate (env.randInit i)]),
         time_func_eval := (List.range 3).map fun i => (env.durInit i).2,
         time_optimization_overhead :=
           (List.range 3).map fun i => (env.durInit i).1,
         model_untrained := true,
         incumbent := some (env.randInit 0),
         incumbent_value := some [cfg.task.evaluate (env.randInit 0)] },
       ((List.range 3).map fun i => Event.initPointEval i (env.randInit i)) ++
         (if cfg.save_dir ∧ 0 % cfg.num_save = 0 then
            [Event.saveCall 0 none (some 0)] else [])) := rfl

/-- Assemble the decidable length invariant from its components. -/
theorem lensEqB_of (s : BOState) (xs ys : List (List Int))
    (hX : s.X = some xs) (hY : s.Y = some ys) (h1 : xs.length = ys.length)
    (h2 : s.time_func_eval.length = xs.length)
    (h3 : s.time_optimization_overhead.length = xs.length) :
    lensEqB s = true := by
  simp [lensEqB, hX, hY, h1, h2, h3]

/-- C1: a fresh `run(num_iterations = N)` with `N ≥ 1` (and training
succeeding throughout) returns normally with exactly `3 + (N - 1)`
observation rows — 3 from the default initial design plus one per loop
iteration — and after the setup phase every prefix of the loop leaves
the inputs, values, and both timing arrays with equal lengths. -/
theorem C1_run_growth (cfg : Config) (env : Env) (N : Nat) (hN : 1 ≤ N)
    (htrain : ∀ (a b : List (List Int)), cfg.model.trainOk a b = true) :
    (∃ inc v s tr xs, run cfg env N none none = RunResult.ok inc v s tr ∧
       s.X = some xs ∧ xs.length = 3 + (N - 1) ∧ lensEqB s = true) ∧
    (∀ k, k ≤ N - 1 → ∃ s1 ev1 s' tr',
       runSetup cfg env none none initState = Except.ok (s1, ev1) ∧
       runLoop cfg env (List.range' 1 k) s1 ev1 = Except.ok (s', tr') ∧
       lensEqB s' = true ∧ xlen s' = 3 + k) := by
  constructor
  · obtain ⟨s', tr', xs', ys', hrun, hX', hY', hl1, hl2, hl3, hl4, hincv⟩ :=
      runLoop_grow cfg env (3 + (N - 1))
        (fun a b _ => htrain a b) (List.range' 1 (N - 1))
        { X := some ((List.range 3).map fun i => env.randInit i),
          Y := some ((List.range 3).map fun i =>
            [cfg.task.evaluate (env.randInit i)]),
          time_func_eval := (List.range 3).map fun i => (env.durInit i).2,
          time_optimization_overhead :=
            (List.range 3).map fun i => (env.durInit i).1,
          model_untrained := true,
          incumbent := some (env.randInit 0),
          incumbent_value := some [cfg.task.evaluate (env.randInit 0)] }
        (((List.range 3).map fun i =>
            Event.initPointEval i (env.randInit i)) ++
          (if cfg.save_dir ∧ 0 % cfg.num_save = 0 then
             [Event.saveCall 0 none (some 0)] else []))
        ((List.range 3).map fun i => env.randInit i)
        ((List.range 3).map fun i => [cfg.task.evaluate (env.randInit i)])
        rfl rfl (by simp) (by simp) (by simp) (by simp)
    have hvs : ∃ v', s'.incumbent_value = some v' := by
      rcases hincv with h | ⟨rfl, _⟩
      · exact Option.isSome_iff_exists.mp h
      · exact ⟨_, rfl⟩
    obtain ⟨v', hv'⟩ := hvs
    refine ⟨s'.incumbent, v', s', tr', xs', ?_, hX', ?_, ?_⟩
    · simp only [run, runSetup_fresh]
      rw [hrun]
      show (match s'.incumbent_value with
        | none => RunResult.err BOError.attributeError s' tr'
        | some v => RunResult.ok s'.incumbent v s' tr') =
        RunResult.ok s'.incumbent v' s' tr'
      rw [hv']
    · simp only [List.length_map, List.length_range,
        List.length_range'] at hl1
      exact hl1
    · exact lensEqB_of s' xs' ys' hX' hY' (by omega)
        (by omega) (by omega)
  · intro k hk
    obtain ⟨s', tr', xs', ys', hrun, hX', hY', hl1, hl2, hl3, hl4, hincv⟩ :=
      runLoop_grow cfg env (3 + (N - 1))
        (fun a b _ => htrain a b) (List.range' 1 k)
        { X := some ((List.range 3).map fun i => env.randInit i),
          Y := some ((List.range 3).map fun i =>
            [cfg.task.evaluate (env.randInit i)]),
          time_func_eval := (List.range 3).map fun i => (env.durInit i).2,
          time_optimization_overhead :=
            (List.range 3).map fun i => (env.durInit i).1,
          model_untrained := true,
          incumbent := some (env.randInit 0),
          incumbent_value := some [cfg.task.evaluate (env.randInit 0)] }
        (((List.range 3).map fun i =>
            Event.initPointEval i (env.randInit i)) ++
          (if cfg.save_dir ∧ 0 % cfg.num_save = 0 then
             [Event.saveCall 0 none (some 0)] else []))
        ((List.range 3).map fun i => env.randInit i)
        ((List.range 3).map fun i => [cfg.task.evaluate (env.randInit i)])
        rfl rfl (by simp) (by simp) (by simp)
        (by simp only [List.length_map, List.length_range,
              List.length_range']
            omega)
    refine ⟨_, _, s', tr', runSetup_fresh cfg env, hrun, ?_, ?_⟩
    · exact lensEqB_of s' xs' ys' hX' hY' (by omega) (by omega) (by omega)
    · rw [xlen, hX']
      simp only [Option.getD_some]
      simp only [List.length_map, List.length_range,
        List.length_range'] at hl1
      exact hl1

/-- Witness for C1 on the baseline configuration with `N = 3`: the run
ends with `3 + 2` observation rows. -/
theorem C1_run_growth_witness :
    ∃ inc v s tr xs, run baseCfg baseEnv 3 none none =
        RunResult.ok inc v s tr ∧
      s.X = some xs ∧ xs.length = 3 + (3 - 1) ∧ lensEqB s = true :=
  (C1_run_growth baseCfg baseEnv 3 (by decide) (fun a b => rfl)).1

/-- Running the loop over a concatenation is running it over the first
part and, if that succeeded, continuing over the second. -/
theorem runLoop_append (cfg : Config) (env : Env) (a b : List Nat) :
    ∀ (s : BOState) (tr : List Event),
    runLoop cfg env (a ++ b) s tr =
      match runLoop cfg env a s tr with
      | Except.error e => Except.error e
      | Except.ok (s', tr') => runLoop cfg env b s' tr' := by
  induction a with
  | nil => intro s tr; rfl
  | cons it rest ih =>
    intro s tr
    show runLoop cfg env (it :: (rest ++ b)) s tr = _
    rw [runLoop, runLoop]
    cases h : loopIter cfg env it s with
    | error val =>
      obtain ⟨e, s2, ev⟩ := val
      rfl
    | ok val =>
      obtain ⟨s2, ev⟩ := val
      exact ih s2 (tr ++ ev)

/-- A model whose training succeeds only while fewer than 4 observation
rows exist; with the 3-point initial design it fails on loop
iteration 2. -/
def failModel : ModelSpec :=
  { trainOk := fun a _ => decide (a.length < 4), isGPy := false,
    param_array := [] }

/-- The baseline configuration equipped with `failModel`. -/
def failCfg : Config := { baseCfg with model := failModel }

/-- C3: when the model's train call raises at loop iteration `k`,
`choose_next` re-raises the same exception unchanged (no retry, no local
recovery), `run` aborts with that exception, and the observation set at
abort is exactly the state reached after the `k - 1` earlier iterations:
`3 + (k - 1)` rows with all four arrays still length-matched.  The
training failure at iteration `k` is expressed by making training
succeed exactly below `3 + (k - 1)` rows. -/
theorem C3_train_failure_aborts (cfg : Config) (env : Env) (N k : Nat)
    (htv : cfg.train_intervall = 1) (hk1 : 1 ≤ k) (hkN : k ≤ N - 1)
    (htr : ∀ (a b : List (List Int)),
      cfg.model.trainOk a b = decide (a.length < 3 + (k - 1))) :
    (∀ (a b : List (List Int)) (it : Nat) (s : BOState),
       cfg.model.trainOk a b = false →
       choose_next cfg env it s (some a) (some b) true =
         Except.error BOError.trainError) ∧
    (∃ s1 ev1 s tr tr',
       runSetup cfg env none none initState = Except.ok (s1, ev1) ∧
       runLoop cfg env (List.range' 1 (k - 1)) s1 ev1 =
         Except.ok (s, tr') ∧
       run cfg env N none none = RunResult.err BOError.trainError s tr ∧
       (∃ xs, s.X = some xs ∧ xs.length = 3 + (k - 1)) ∧
       lensEqB s = true) := by
  constructor
  · intro a b it s hfail
    simp only [choose_next, hfail, if_true, Bool.false_eq_true, if_false]
  · obtain ⟨s', tr', xs', ys', hrun, hX', hY', hl1, hl2, hl3, hl4, hincv⟩ :=
      runLoop_grow cfg env (3 + (k - 1))
        (fun a b h => by rw [htr]; exact decide_eq_true h)
        (List.range' 1 (k - 1))
        { X := some ((List.range 3).map fun i => env.randInit i),
          Y := some ((List.range 3).map fun i =>
            [cfg.task.evaluate (env.randInit i)]),
          time_func_eval := (List.range 3).map fun i => (env.durInit i).2,
          time_optimization_overhead :=
            (List.range 3).map fun i => (env.durInit i).1,
          model_untrained := true,
          incumbent := some (env.randInit 0),
          incumbent_value := some [cfg.task.evaluate (env.randInit 0)] }
        (((List.range 3).map fun i =>
            Event.initPointEval i (env.randInit i)) ++
          (if cfg.save_dir ∧ 0 % cfg.num_save = 0 then
             [Event.saveCall 0 none (some 0)] else []))
        ((List.range 3).map fun i => env.randInit i)
        ((List.range 3).map fun i => [cfg.task.evaluate (env.randInit i)])
        rfl rfl (by simp) (by simp) (by simp)
        (by simp only [List.length_map, List.length_range,
              List.length_range']
            omega)
    have hxlen : xs'.length = 3 + (k - 1) := by
      simp only [List.length_map, List.length_range,
        List.length_range'] at hl1
      exact hl1
    have htk : cfg.model.trainOk xs' ys' = false := by
      rw [htr]
      simp [hxlen]
    have hdec : decide (k % cfg.train_intervall = 0) = true := by
      rw [htv]
      simp [Nat.mod_one]
    have hfail : loopIter cfg env k s' =
        Except.error (BOError.trainError, s', []) := by
      simp only [loopIter, hX', hY', hdec, choose_next, htk, if_true,
        Bool.false_eq_true, if_false]
    obtain ⟨mrest, hm⟩ : ∃ m, (N - 1) - (k - 1) = m + 1 :=
      ⟨(N - 1) - (k - 1) - 1, by omega⟩
    have hsplit : List.range' 1 (N - 1) =
        List.range' 1 (k - 1) ++ (k :: List.range' (k + 1) mrest) := by
      have h2 : (mrest + 1) + (k - 1) = N - 1 := by omega
      have h1 : 1 + (k - 1) = k := by omega
      calc List.range' 1 (N - 1)
          = List.range' 1 ((mrest + 1) + (k - 1)) := by rw [h2]
        _ = List.range' 1 (k - 1) ++
              List.range' (1 + (k - 1)) (mrest + 1) :=
            (List.range'_append_1 1 (k - 1) (mrest + 1)).symm
        _ = List.range' 1 (k - 1) ++
              (k :: List.range' (k + 1) mrest) := by
            rw [h1, List.range'_succ]
    have hstep : runLoop cfg env (k :: List.range' (k + 1) mrest) s' tr' =
        Except.error (BOError.trainError, s', tr' ++ []) := by
      rw [runLoop, hfail]
    refine ⟨_, _, s', tr' ++ [], tr', runSetup_fresh cfg env, hrun, ?_,
      ⟨xs', hX', hxlen⟩,
      lensEqB_of s' xs' ys' hX' hY' (by omega) (by omega) (by omega)⟩
    simp only [run, runSetup_fresh, hsplit]
    rw [runLoop_append, hrun]
    show (match runLoop cfg env (k :: List.range' (k + 1) mrest) s' tr' with
      | Except.error (e, s2, tr2) => RunResult.err e s2 tr2
      | Except.ok (s2, tr2) =>
          match s2.incumbent_value with
          | none => RunResult.err BOError.attributeError s2 tr2
          | some v => RunResult.ok s2.incumbent v s2 tr2) =
      RunResult.err BOError.trainError s' (tr' ++ [])
    rw [hstep]

/-- Witness for C3 with `k = 2`, `N = 3` on the baseline task: training
fails once four rows exist, i.e. on the second loop iteration. -/
theorem C3_train_failure_aborts_witness :
    choose_next failCfg baseEnv 2 initState
        (some [[0], [0], [0], [0]]) (some [[5], [5], [5], [5]]) true =
      Except.error BOError.trainError ∧
    (∃ s1 ev1 s tr tr',
       runSetup failCfg baseEnv none none initState = Except.ok (s1, ev1) ∧
       runLoop failCfg baseEnv (List.range' 1 (2 - 1)) s1 ev1 =
         Except.ok (s, tr') ∧
       run failCfg baseEnv 3 none none =
         RunResult.err BOError.trainError s tr ∧
       (∃ xs, s.X = some xs ∧ xs.length = 3 + (2 - 1)) ∧
       lensEqB s = true) := by
  have h := C3_train_failure_aborts failCfg baseEnv 3 2 rfl (by decide)
    (by decide) (fun a b => rfl)
  exact ⟨h.1 [[0], [0], [0], [0]] [[5], [5], [5], [5]] 2 initState
    (by decide), h.2⟩

/-- C4: when the configured recommendation strategy is
`optimize_posterior_mean_and_std` (identity comparison), each incumbent
recomputation invokes it with exactly `n_restarts + 1` start points —
`n_restarts` uniform draws within the task bounds followed by the current
best observed row — and `with_gradients = True`; any other configured
strategy is invoked with the single current best observed row and no
gradient flag. -/
theorem C4_recommendation_startpoints (cfg : Config) (env : Env) (it : Nat)
    (s : BOState) (xs ys : List (List Int))
    (hX : s.X = some xs) (hY : s.Y = some ys) :
    (cfg.recommendation_strategy = RecStrategy.optimizePosteriorMeanAndStd →
      (recomputeIncumbent cfg env it s).2 =
        [Event.recommendCall it
          (StartArg.multiple
            (((List.range cfg.n_restarts).map fun i => env.randRec it i) ++
              [xs.getD (argmin ys.flatten) []]))
          (some true)] ∧
      (((List.range cfg.n_restarts).map fun i => env.randRec it i) ++
        [xs.getD (argmin ys.flatten) []]).length = cfg.n_restarts + 1) ∧
    (cfg.recommendation_strategy = RecStrategy.otherStrategy →
      (recomputeIncumbent cfg env it s).2 =
        [Event.recommendCall it
          (StartArg.single (xs.getD (argmin ys.flatten) [])) none]) := by
  constructor
  · intro hst
    constructor
    · simp only [recomputeIncumbent, hst, hX, hY, Option.getD_some]
    · simp
  · intro hst
    simp only [recomputeIncumbent, hst, hX, hY, Option.getD_some]

/-- Witness for C4: both strategy variants at a concrete state, with the
multi-restart call receiving 10 + 1 start points. -/
theorem C4_recommendation_startpoints_witness :
    (recomputeIncumbent
        { baseCfg with recommendation_strategy :=
            RecStrategy.optimizePosteriorMeanAndStd }
        baseEnv 1
        { initState with X := some [[4]], Y := some [[5]] }).2 =
      [Event.recommendCall 1
        (StartArg.multiple
          ((((List.range 10).map fun i => baseEnv.randRec 1 i)) ++ [[4]]))
        (some true)] ∧
    (recomputeIncumbent
        { baseCfg with recommendation_strategy := RecStrategy.otherStrategy }
        baseEnv 1
        { initState with X := some [[4]], Y := some [[5]] }).2 =
      [Event.recommendCall 1 (StartArg.single [4]) none] := by
  constructor
  · exact ((C4_recommendation_startpoints
      { baseCfg with recommendation_strategy :=
          RecStrategy.optimizePosteriorMeanAndStd }
      baseEnv 1 { initState with X := some [[4]], Y := some [[5]] }
      [[4]] [[5]] rfl rfl).1 rfl).1
  · exact (C4_recommendation_startpoints
      { baseCfg with recommendation_strategy := RecStrategy.otherStrategy }
      baseEnv 1 { initState with X := some [[4]], Y := some [[5]] }
      [[4]] [[5]] rfl rfl).2 rfl

/-- Project a checkpoint event to its payload; anything else to `none`. -/
def saveOf : Event → Option (Nat × Option (List Int) × Option Int)
  | Event.saveCall k h a => some (k, h, a)
  | _ => none

/-- Whether an event is a model-training call. -/
def isTrainCall : Event → Bool
  | Event.trainCall _ _ _ => true
  | _ => false

/-- The hyperparameters an in-loop checkpoint records: the model's
`param_array` for a `GPyModel`, nothing otherwise. -/
def hyperOf (cfg : Config) : Option (List Int) :=
  if cfg.model.isGPy then some cfg.model.param_array else none

/-- The acquisition value an in-loop checkpoint records at iteration
`it`: the acquisition function at the newly proposed candidate for a
`GPyModel`, nothing otherwise. -/
def acqValOf (cfg : Config) (env : Env) (it : Nat) : Option Int :=
  if cfg.model.isGPy then some (cfg.acquisition_func (env.maximize it))
  else none

/-- The checkpoint payloads the loop body is expected to emit over a
list of iterations: one per iteration with `save_dir` set and
`it % num_save = 0`, in order. -/
def expectedSaves (cfg : Config) (env : Env) (its : List Nat) :
    List (Nat × Option (List Int) × Option Int) :=
  its.filterMap fun it =>
    if cfg.save_dir ∧ it % cfg.num_save = 0 then
      some (it, hyperOf cfg, acqValOf cfg env it)
    else none

/-- Event bookkeeping for one loop-body trace: it always contains the
acquisition rebind and the maximizer call for its iteration, contains a
training call exactly when retraining was due, and its checkpoint
payloads are exactly the expected ones. -/
theorem iterEvents_props (cfg : Config) (env : Env) (it : Nat)
    (s1 : BOState) (xs ys : List (List Int)) (ev : List Event)
    (hev : ev =
      (if it % cfg.train_intervall = 0 then
         [Event.trainCall it xs ys, Event.acqUpdate it,
          Event.maximizeCall it]
       else [Event.acqUpdate it, Event.maximizeCall it]) ++
      (recomputeIncumbent cfg env it s1).2 ++
      [Event.evalCall it (env.maximize it)] ++
      (if cfg.save_dir ∧ it % cfg.num_save = 0 then
         (if cfg.model.isGPy then
            [Event.saveCall it (some cfg.model.param_array)
              (some (cfg.acquisition_func (env.maximize it)))]
          else [Event.saveCall it none none])
       else [])) :
    Event.acqUpdate it ∈ ev ∧ Event.maximizeCall it ∈ ev ∧
    (it % cfg.train_intervall = 0 → Event.trainCall it xs ys ∈ ev) ∧
    (∀ j a b, Event.trainCall j a b ∈ ev →
      j = it ∧ j % cfg.train_intervall = 0) ∧
    ev.filterMap saveOf =
      (if cfg.save_dir ∧ it % cfg.num_save = 0 then
         [(it, hyperOf cfg, acqValOf cfg env it)] else []) := by
  subst hev
  rcases recompute_trace cfg env it s1 with h2 | ⟨a2, b2, h2⟩ <;>
    rw [h2] <;>
    by_cases hc : it % cfg.train_intervall = 0 <;>
    by_cases hs : cfg.save_dir ∧ it % cfg.num_save = 0 <;>
    by_cases hg : cfg.model.isGPy <;>
    refine ⟨by simp [hc, hs, hg], by simp [hc, hs, hg],
      fun h => by first | exact absurd h hc | simp [hc, hs, hg],
      ?_, ?_⟩ <;>
    first
      | (intro j a b hj
         simp only [hc, hs, hg, if_true, if_false, List.mem_append,
           List.mem_cons, List.mem_singleton, List.not_mem_nil,
           or_false, false_or, if_pos, if_neg, not_false_iff] at hj
         first
           | (rcases hj with ⟨rfl, rfl, rfl⟩ | hj <;> simp_all)
           | simp_all)
      | simp [hc, hs, hg, saveOf, hyperOf, acqValOf]

/-- Trace bookkeeping for the whole loop: with training always
succeeding, the loop extends the accumulated trace, every iteration
contributes its acquisition rebind and maximizer call, training calls
appear exactly for the iterations where retraining was due, and the
checkpoint payloads are exactly the expected ones in order. -/
theorem runLoop_trace (cfg : Config) (env : Env)
    (htrain : ∀ (a b : List (List Int)), cfg.model.trainOk a b = true) :
    ∀ (its : List Nat) (s : BOState) (tr : List Event)
      (xs ys : List (List Int)),
    s.X = some xs → s.Y = some ys →
    ∃ s' ext xs' ys',
      runLoop cfg env its s tr = Except.ok (s', tr ++ ext) ∧
      s'.X = some xs' ∧ s'.Y = some ys' ∧
      (∀ it ∈ its, Event.acqUpdate it ∈ ext ∧
        Event.maximizeCall it ∈ ext) ∧
      (∀ it ∈ its, it % cfg.train_intervall = 0 →
        ∃ a b, Event.trainCall it a b ∈ ext) ∧
      (∀ it a b, Event.trainCall it a b ∈ ext →
        it ∈ its ∧ it % cfg.train_intervall = 0) ∧
      ext.filterMap saveOf = expectedSaves cfg env its := by
  intro its
  induction its with
  | nil =>
    intro s tr xs ys hX hY
    exact ⟨s, [], xs, ys, by simp [runLoop], hX, hY, by simp, by simp,
      by simp, by simp [expectedSaves]⟩
  | cons it rest ih =>
    intro s tr xs ys hX hY
    obtain ⟨i, v, hiter⟩ := loopIter_ok cfg env it s xs ys hX hY
      (fun _ => htrain xs ys)
    obtain ⟨s', ext', xs', ys', hrun, hX', hY', hmem, htf, htb, hsv⟩ :=
      ih { s with
            X := some (xs ++ [env.maximize it]),
            Y := some (ys ++ [[cfg.task.evaluate (env.maximize it)]]),
            time_func_eval := s.time_func_eval ++ [(env.durLoop it).2],
            time_optimization_overhead :=
              s.time_optimization_overhead ++ [(env.durLoop it).1],
            model_untrained := false,
            incumbent := some i, incumbent_value := some v }
        (tr ++
          ((if it % cfg.train_intervall = 0 then
              [Event.trainCall it xs ys, Event.acqUpdate it,
               Event.maximizeCall it]
            else [Event.acqUpdate it, Event.maximizeCall it]) ++
           (recomputeIncumbent cfg env it
             { s with model_untrained := false }).2 ++
           [Event.evalCall it (env.maximize it)] ++
           (if cfg.save_dir ∧ it % cfg.num_save = 0 then
              (if cfg.model.isGPy then
                 [Event.saveCall it (some cfg.model.param_array)
                   (some (cfg.acquisition_func (env.maximize it)))]
               else [Event.saveCall it none none])
            else [])))
        (xs ++ [env.maximize it])
        (ys ++ [[cfg.task.evaluate (env.maximize it)]])
        rfl rfl
    obtain ⟨hpa, hpm, hpt, hptb, hpsv⟩ := iterEvents_props cfg env it
      { s with model_untrained := false } xs ys _ rfl
    refine ⟨s',
      ((if it % cfg.train_intervall = 0 then
          [Event.trainCall it xs ys, Event.acqUpdate it,
           Event.maximizeCall it]
        else [Event.acqUpdate it, Event.maximizeCall it]) ++
       (recomputeIncumbent cfg env it
         { s with model_untrained := false }).2 ++
       [Event.evalCall it (env.maximize it)] ++
       (if cfg.save_dir ∧ it % cfg.num_save = 0 then
          (if cfg.model.isGPy then
             [Event.saveCall it (some cfg.model.param_array)
               (some (cfg.acquisition_func (env.maximize it)))]
           else [Event.saveCall it none none])
        else [])) ++ ext',
      xs', ys', ?_, hX', hY', ?_, ?_, ?_, ?_⟩
    · rw [runLoop, hiter]
      conv_rhs => rw [← List.append_assoc]
      exact hrun
    · intro j hj
      rcases List.mem_cons.mp hj with rfl | hj
      · exact ⟨List.mem_append_left _ hpa, List.mem_append_left _ hpm⟩
      · exact ⟨List.mem_append_right _ (hmem j hj).1,
          List.mem_append_right _ (hmem j hj).2⟩
    · intro j hj hc
      rcases List.mem_cons.mp hj with rfl | hj
      · exact ⟨xs, ys, List.mem_append_left _ (hpt hc)⟩
      · obtain ⟨a, b, hab⟩ := htf j hj hc
        exact ⟨a, b, List.mem_append_right _ hab⟩
    · intro j a b hj
      rcases List.mem_append.mp hj with hj | hj
      · obtain ⟨rfl, hc⟩ := hptb j a b hj
        exact ⟨List.mem_cons_self _ _, hc⟩
      · obtain ⟨hmemr, hc⟩ := htb j a b hj
        exact ⟨List.mem_cons_of_mem _ hmemr, hc⟩
    · rw [List.filterMap_append, hpsv, hsv]
      by_cases hs : cfg.save_dir ∧ it % cfg.num_save = 0 <;>
        simp [expectedSaves, List.filterMap_cons, hs]

/-- On iteration indices that are all at least 1, the C5 checkpoint
characterisation (with its iteration-0 special case never firing)
coincides with `expectedSaves`. -/
theorem saves_range' (cfg : Config) (env : Env)
    (hsd : cfg.save_dir = true) :
    ∀ (n s : Nat), 1 ≤ s →
    (List.range' s n).filterMap (fun k =>
      if k % cfg.num_save = 0 then
        some (k, (if k = 0 then none else hyperOf cfg),
                 (if k = 0 then (some 0 : Option Int)
                  else acqValOf cfg env k))
      else none) = expectedSaves cfg env (List.range' s n) := by
  intro n
  induction n with
  | zero => intro s hs; rfl
  | succ m ih =>
    intro s hs
    rw [List.range'_succ]
    have hrhs : expectedSaves cfg env (s :: List.range' (s + 1) m) =
        (if cfg.save_dir ∧ s % cfg.num_save = 0 then
           [(s, hyperOf cfg, acqValOf cfg env s)] else []) ++
          expectedSaves cfg env (List.range' (s + 1) m) := by
      by_cases hc : cfg.save_dir ∧ s % cfg.num_save = 0 <;>
        simp [expectedSaves, List.filterMap_cons, hc]
    rw [hrhs, ← ih (s + 1) (by omega)]
    have hs0 : ¬(s = 0) := by omega
    by_cases hc : s % cfg.num_save = 0 <;>
      simp [List.filterMap_cons, hc, hs0, hsd]

/-- The setup-phase trace contains no model-training call. -/
theorem setup_trace_no_train (cfg : Config) (env : Env) (j : Nat)
    (a b : List (List Int)) :
    Event.trainCall j a b ∉
      (((List.range 3).map fun i =>
          Event.initPointEval i (env.randInit i)) ++
        (if cfg.save_dir ∧ 0 % cfg.num_save = 0 then
           [Event.saveCall 0 none (some 0)] else [])) := by
  intro hmem
  rcases List.mem_append.mp hmem with h | h
  · obtain ⟨i, _, heq⟩ := List.mem_map.mp h
    exact Event.noConfusion heq
  · by_cases hc : cfg.save_dir ∧ 0 % cfg.num_save = 0
    · rw [if_pos hc] at h
      exact Event.noConfusion (List.mem_singleton.mp h)
    · rw [if_neg hc] at h
      exact absurd h (List.not_mem_nil _)

/-- A fresh `run` returning normally has a trace consisting of the setup
trace followed by the loop trace, with the loop trace satisfying the
per-iteration call bookkeeping of `runLoop_trace`. -/
theorem run_ok_trace (cfg : Config) (env : Env) (N : Nat)
    (inc : Option (List Int)) (v : List Int) (s : BOState)
    (tr : List Event)
    (htrain : ∀ (a b : List (List Int)), cfg.model.trainOk a b = true)
    (hrun : run cfg env N none none = RunResult.ok inc v s tr) :
    ∃ ext,
      tr = (((List.range 3).map fun i =>
          Event.initPointEval i (env.randInit i)) ++
        (if cfg.save_dir ∧ 0 % cfg.num_save = 0 then
           [Event.saveCall 0 none (some 0)] else [])) ++ ext ∧
      (∀ it ∈ List.range' 1 (N - 1), Event.acqUpdate it ∈ ext ∧
        Event.maximizeCall it ∈ ext) ∧
      (∀ it ∈ List.range' 1 (N - 1), it % cfg.train_intervall = 0 →
        ∃ a b, Event.trainCall it a b ∈ ext) ∧
      (∀ it a b, Event.trainCall it a b ∈ ext →
        it ∈ List.range' 1 (N - 1) ∧ it % cfg.train_intervall = 0) ∧
      ext.filterMap saveOf =
        expectedSaves cfg env (List.range' 1 (N - 1)) := by
  obtain ⟨s', ext, xs', ys', hloop, hX', hY', hmem, htf, htb, hsv⟩ :=
    runLoop_trace cfg env htrain (List.range' 1 (N - 1))
      { X := some ((List.range 3).map fun i => env.randInit i),
        Y := some ((List.range 3).map fun i =>
          [cfg.task.evaluate (env.randInit i)]),
        time_func_eval := (List.range 3).map fun i => (env.durInit i).2,
        time_optimization_overhead :=
          (List.range 3).map fun i => (env.durInit i).1,
        model_untrained := true,
        incumbent := some (env.randInit 0),
        incumbent_value := some [cfg.task.evaluate (env.randInit 0)] }
      (((List.range 3).map fun i =>
          Event.initPointEval i (env.randInit i)) ++
        (if cfg.save_dir ∧ 0 % cfg.num_save = 0 then
           [Event.saveCall 0 none (some 0)] else []))
      ((List.range 3).map fun i => env.randInit i)
      ((List.range 3).map fun i => [cfg.task.evaluate (env.randInit i)])
      rfl rfl
  simp only [run, runSetup_fresh] at hrun
  rw [hloop] at hrun
  replace hrun : (match s'.incumbent_value with
      | none => RunResult.err BOError.attributeError s'
          ((((List.range 3).map fun i =>
              Event.initPointEval i (env.randInit i)) ++
            (if cfg.save_dir ∧ 0 % cfg.num_save = 0 then
               [Event.saveCall 0 none (some 0)] else [])) ++ ext)
      | some v2 => RunResult.ok s'.incumbent v2 s'
          ((((List.range 3).map fun i =>
              Event.initPointEval i (env.randInit i)) ++
            (if cfg.save_dir ∧ 0 % cfg.num_save = 0 then
               [Event.saveCall 0 none (some 0)] else [])) ++ ext)) =
      RunResult.ok inc v s tr := hrun
  cases hincv : s'.incumbent_value with
  | none =>
    rw [hincv] at hrun
    exact absurd hrun (by simp)
  | some v2 =>
    rw [hincv] at hrun
    simp only [RunResult.ok.injEq] at hrun
    exact ⟨ext, hrun.2.2.2.symm, hmem, htf, htb, hsv⟩

/-- C5: on a fresh run with checkpointing enabled and training always
succeeding, the sequence of persisted checkpoints is exactly one per
iteration `k < N` with `k mod num_save = 0`: the iteration-0 checkpoint
with no hyperparameters and acquisition value 0, and in-loop checkpoints
carrying the model's hyperparameters and the new candidate's acquisition
value when the model is a `GPyModel`, and neither otherwise. -/
theorem C5_checkpoint_cadence (cfg : Config) (env : Env) (N : Nat)
    (inc : Option (List Int)) (v : List Int) (s : BOState)
    (tr : List Event)
    (hN : 1 ≤ N) (hsd : cfg.save_dir = true)
    (htrain : ∀ (a b : List (List Int)), cfg.model.trainOk a b = true)
    (hrun : run cfg env N none none = RunResult.ok inc v s tr) :
    tr.filterMap saveOf =
      (List.range N).filterMap (fun k =>
        if k % cfg.num_save = 0 then
          some (k, (if k = 0 then none else hyperOf cfg),
                   (if k = 0 then (some 0 : Option Int)
                    else acqValOf cfg env k))
        else none) := by
  obtain ⟨ext, htreq, _, _, _, hsv⟩ :=
    run_ok_trace cfg env N inc v s tr htrain hrun
  subst htreq
  rw [List.filterMap_append, hsv]
  have hsetup : (((List.range 3).map fun i =>
      Event.initPointEval i (env.randInit i)) ++
      (if cfg.save_dir ∧ 0 % cfg.num_save = 0 then
         [Event.saveCall 0 none (some 0)] else [])).filterMap saveOf =
      [((0 : Nat), (none : Option (List Int)), (some 0 : Option Int))] := by
    rw [if_pos ⟨hsd, Nat.zero_mod _⟩]
    rfl
  rw [hsetup]
  obtain ⟨M, rfl⟩ : ∃ M, N = M + 1 := ⟨N - 1, by omega⟩
  rw [List.range_eq_range', List.range'_succ, List.filterMap_cons]
  rw [saves_range' cfg env hsd M (0 + 1) (by omega)]
  simp [expectedSaves]

/-- C6: on a fresh run with training always succeeding, each loop
iteration `1 ≤ it ≤ N - 1` retrains the model exactly when
`it mod train_intervall = 0`, and — whether or not it retrained — still
rebinds the acquisition function to the model and invokes the
maximizer. -/
theorem C6_retrain_cadence (cfg : Config) (env : Env) (N : Nat)
    (inc : Option (List Int)) (v : List Int) (s : BOState)
    (tr : List Event)
    (htv : 1 ≤ cfg.train_intervall)
    (htrain : ∀ (a b : List (List Int)), cfg.model.trainOk a b = true)
    (hrun : run cfg env N none none = RunResult.ok inc v s tr) :
    ∀ it, 1 ≤ it → it ≤ N - 1 →
      ((∃ a b, Event.trainCall it a b ∈ tr) ↔
        it % cfg.train_intervall = 0) ∧
      Event.acqUpdate it ∈ tr ∧ Event.maximizeCall it ∈ tr := by
  obtain ⟨ext, htreq, hmem, htf, htb, _⟩ :=
    run_ok_trace cfg env N inc v s tr htrain hrun
  intro it h1 h2
  have hit : it ∈ List.range' 1 (N - 1) := by
    rw [List.mem_range'_1]
    omega
  subst htreq
  refine ⟨⟨?_, ?_⟩, List.mem_append_right _ (hmem it hit).1,
    List.mem_append_right _ (hmem it hit).2⟩
  · rintro ⟨a, b, hab⟩
    rcases List.mem_append.mp hab with h | h
    · exact absurd h (setup_trace_no_train cfg env it a b)
    · exact (htb it a b h).2
  · intro hc
    obtain ⟨a, b, hab⟩ := htf it hit hc
    exact ⟨a, b, List.mem_append_right _ hab⟩

/-- Baseline configuration with checkpointing enabled. -/
def saveCfg : Config := { baseCfg with save_dir := true }

/-- Final state of `run saveCfg baseEnv 2 none none` (and likewise of
the baseline run, which differs only in its trace). -/
def twoIterState : BOState :=
  { X := some [[0], [0], [0], [0]], Y := some [[5], [5], [5], [5]],
    time_func_eval := [0, 0, 0, 0],
    time_optimization_overhead := [0, 0, 0, 0],
    model_untrained := false, incumbent := some [0],
    incumbent_value := some [5] }

/-- Trace of `run saveCfg baseEnv 2 none none`. -/
def saveRunTrace : List Event :=
  [Event.initPointEval 0 [0], Event.initPointEval 1 [0],
   Event.initPointEval 2 [0], Event.saveCall 0 none (some 0),
   Event.trainCall 1 [[0], [0], [0]] [[5], [5], [5]],
   Event.acqUpdate 1, Event.maximizeCall 1, Event.evalCall 1 [0],
   Event.saveCall 1 none none]

/-- Witness for C5: the `N = 2`, `num_save = 1` run checkpoints exactly
at iterations 0 and 1 with the expected payloads. -/
theorem C5_checkpoint_cadence_witness :
    saveRunTrace.filterMap saveOf =
      (List.range 2).filterMap (fun k =>
        if k % saveCfg.num_save = 0 then
          some (k, (if k = 0 then none else hyperOf saveCfg),
                   (if k = 0 then (some 0 : Option Int)
                    else acqValOf saveCfg baseEnv k))
        else none) :=
  C5_checkpoint_cadence saveCfg baseEnv 2 (some [0]) [5] twoIterState
    saveRunTrace (by decide) rfl (fun a b => rfl) (by decide)

/-- Trace of `run baseCfg baseEnv 2 none none`. -/
def baseRunTrace : List Event :=
  [Event.initPointEval 0 [0], Event.initPointEval 1 [0],
   Event.initPointEval 2 [0],
   Event.trainCall 1 [[0], [0], [0]] [[5], [5], [5]],
   Event.acqUpdate 1, Event.maximizeCall 1, Event.evalCall 1 [0]]

/-- Witness for C6 at iteration 1 of the baseline `N = 2` run: training
happened (since `1 mod 1 = 0`) and the acquisition rebind and maximizer
calls are present. -/
theorem C6_retrain_cadence_witness :
    ((∃ a b, Event.trainCall 1 a b ∈ baseRunTrace) ↔
      1 % baseCfg.train_intervall = 0) ∧
    Event.acqUpdate 1 ∈ baseRunTrace ∧
    Event.maximizeCall 1 ∈ baseRunTrace :=
  C6_retrain_cadence baseCfg baseEnv 2 (some [0]) [5] twoIterState
    baseRunTrace (by decide) (fun a b => rfl) (by decide) 1 (by decide)
    (by decide)

/-- C10: with both prior observation arrays supplied and
`num_iterations ≤ 1`, the loop body never runs (the trace is empty), the
incumbent stays at the constructor's `None`, the incumbent value is never
assigned, and `run` aborts with an `AttributeError` at its final return
instead of returning an incumbent. -/
theorem C10_prior_short_run (cfg : Config) (env : Env)
    (Xs Ys : List (List Int)) (N : Nat) (hN : N ≤ 1) :
    ∃ s1, run cfg env N (some Xs) (some Ys) =
        RunResult.err BOError.attributeError s1 [] ∧
      s1.incumbent = none ∧ s1.incumbent_value = none ∧
      s1.X = some Xs ∧ s1.Y = some Ys := by
  have hr : N - 1 = 0 := by omega
  refine ⟨{ initState with
      X := some Xs,
      Y := some Ys,
      time_func_eval := List.replicate Xs.length 0,
      time_optimization_overhead := List.replicate Xs.length 0 },
    ?_, rfl, rfl, rfl, rfl⟩
  unfold run
  rw [hr]
  exact rfl

/-- Witness for C10 at `N = 1` with one prior observation. -/
theorem C10_prior_short_run_witness :
    ∃ s1, run baseCfg baseEnv 1 (some [[7]]) (some [[9]]) =
        RunResult.err BOError.attributeError s1 [] ∧
      s1.incumbent = none ∧ s1.incumbent_value = none ∧
      s1.X = some [[7]] ∧ s1.Y = some [[9]] :=
  C10_prior_short_run baseCfg baseEnv [[7]] [[9]] 1 (by decide)

/-- C8: when `run` receives both prior inputs and prior values, the
setup phase adopts them verbatim as the observation set, performs no
initialization (its trace is empty), and resets both timing arrays to
all-zero arrays of the same length as the supplied observations. -/
theorem C8_prior_adoption (cfg : Config) (env : Env)
    (Xs Ys : List (List Int)) :
    ∃ s1, runSetup cfg env (some Xs) (some Ys) initState =
        Except.ok (s1, []) ∧
      s1.X = some Xs ∧ s1.Y = some Ys ∧
      s1.time_func_eval = List.replicate Xs.length 0 ∧
      s1.time_optimization_overhead = List.replicate Xs.length 0 :=
  ⟨_, rfl, rfl, rfl, rfl, rfl⟩

/-- Baseline configuration with `train_intervall = 2`, so loop
iteration 1 skips retraining. -/
def lagCfg : Config := { baseCfg with train_intervall := 2 }

/-- Trace of `run lagCfg baseEnv 2 none none`: no training call at
all. -/
def lagRunTrace : List Event :=
  [Event.initPointEval 0 [0], Event.initPointEval 1 [0],
   Event.initPointEval 2 [0],
   Event.acqUpdate 1, Event.maximizeCall 1, Event.evalCall 1 [0]]

/-- Counterexample to C9 as stated: with `train_intervall = 2`, the
`N = 2` run never calls the model's train method (its trace contains no
training call), yet it ends with the model-untrained flag already set to
false — so the flag does not become false "exactly after the first
successful model training call". -/
theorem C9_flag_counterexample :
    run lagCfg baseEnv 2 none none =
      RunResult.ok (some [0]) [5] twoIterState lagRunTrace ∧
    twoIterState.model_untrained = false ∧
    lagRunTrace.countP isTrainCall = 0 :=
  ⟨by decide, rfl, by decide⟩

/-- Force the model-untrained flag of a state to false, for comparing
loop-body results up to that flag. -/
def maskFlag (s : BOState) : BOState := { s with model_untrained := false }

/-- Apply `maskFlag` to the state inside a loop-body result, success or
failure. -/
def maskIter :
    Except (BOError × BOState × List Event) (BOState × List Event) →
    Except (BOError × BOState × List Event) (BOState × List Event)
  | Except.error (e, s, tr) => Except.error (e, maskFlag s, tr)
  | Except.ok (s, tr) => Except.ok (maskFlag s, tr)

/-- The incumbent recomputation neither reads nor clears the
model-untrained flag: it carries it through unchanged. -/
theorem recompute_flag_indep (cfg : Config) (env : Env) (it : Nat)
    (s : BOState) (b : Bool) :
    (recomputeIncumbent cfg env it
        { s with model_untrained := b }).1 =
      { (recomputeIncumbent cfg env it s).1 with model_untrained := b } ∧
    (recomputeIncumbent cfg env it
        { s with model_untrained := b }).2 =
      (recomputeIncumbent cfg env it s).2 := by
  cases hst : cfg.recommendation_strategy <;>
    simp [recomputeIncumbent, hst]

/-- C9 amended: the model-untrained flag starts as true at construction
and is set to false by every `choose_next` call that receives
observations and completes without raising — whether or not a training
call actually occurred on that invocation — and apart from that
assignment the flag never influences the loop body's behavior: results
agree, up to the flag itself, for any two initial flag values. -/
theorem C9_flag_amended (cfg : Config) (env : Env) :
    initState.model_untrained = true ∧
    (∀ (it : Nat) (s : BOState) (Xv Yv : List (List Int)) (d : Bool) r,
      choose_next cfg env it s (some Xv) (some Yv) d = Except.ok r →
      r.2.1.model_untrained = false) ∧
    (∀ (it : Nat) (s : BOState) (b : Bool),
      maskIter (loopIter cfg env it { s with model_untrained := b }) =
        maskIter (loopIter cfg env it s)) := by
  refine ⟨rfl, ?_, ?_⟩
  · intro it s Xv Yv d r h
    cases d with
    | false =>
      simp only [choose_next, Bool.false_eq_true, if_false] at h
      cases h
      rfl
    | true =>
      by_cases htr : cfg.model.trainOk Xv Yv = true
      · simp only [choose_next, htr, if_true] at h
        cases h
        rfl
      · rw [choose_next.eq_def] at h
        simp only [if_true, if_neg htr] at h
        cases h
  · intro it s b
    rcases s with ⟨sx, sy, tfe, too, mu, inc, incv⟩
    cases sx with
    | none =>
      cases hst : cfg.recommendation_strategy <;>
        cases sy <;>
          simp only [loopIter, choose_next, initialPhase,
            recomputeIncumbent, hst, maskIter, maskFlag]
    | some xv =>
      cases sy with
      | none =>
        cases hst : cfg.recommendation_strategy <;>
          simp only [loopIter, choose_next, initialPhase,
            recomputeIncumbent, hst, maskIter, maskFlag]
      | some yv =>
        by_cases hd : it % cfg.train_intervall = 0
        · have hdec : decide (it % cfg.train_intervall = 0) = true :=
            decide_eq_true hd
          cases htr : cfg.model.trainOk xv yv
          · simp only [loopIter, choose_next, hdec, htr, if_true,
              Bool.false_eq_true, if_false, maskIter, maskFlag]
          · simp only [loopIter, choose_next, hdec, htr, if_true,
              maskIter, maskFlag]
        · have hdec : decide (it % cfg.train_intervall = 0) = false :=
            decide_eq_false hd
          simp only [loopIter, choose_next, hdec, Bool.false_eq_true,
            if_false, maskIter, maskFlag]

/-- Witness for C9's amended statement: a concrete `choose_next` call
that trained successfully leaves the flag false. -/
theorem C9_flag_amended_witness :
    (({ initState with model_untrained := false } : BOState)
      ).model_untrained = false :=
  (C9_flag_amended baseCfg baseEnv).2.1 1 initState [[0]] [[5]] true
    ([[0]], { initState with model_untrained := false },
      [Event.trainCall 1 [[0]] [[5]], Event.acqUpdate 1,
       Event.maximizeCall 1])
    rfl

end RoBO
